import Mathlib

/-!
Verification of the SmartSpend bank-statement parser (src/parser.py).

The parser scans an untyped grid of spreadsheet cells for a transaction
table, classifies candidate header rows by keyword heuristics, renames
bank-specific column labels to canonical roles, unifies debit/credit pairs
into one signed amount, and cleans/filters the rows into transaction
records.

Shallow embedding conventions:
* A raw spreadsheet cell is `Cell`: missing (`na`, pandas NaN), free text,
  a calendar date, or a number.  Numbers are `ℚ` (Python floats in the
  source carry exact decimal literals in every scenario treated here).
* `pd.to_datetime(-, errors="coerce")` is `parseDate`: a genuine date cell
  (including date-formatted text such as the `YYYY-MM-DD` strings the
  cleaner itself produces, which pandas re-parses to the same timestamp)
  parses to its date, everything else to `none`.  `Txn.date` holds the
  calendar date whose `YYYY-MM-DD` rendering (`formatISO`) the code stores.
* `pd.to_numeric(-, errors="coerce")` is `toNumeric`; `str.strip()` is
  `pyStrip`; Python's substring test `kw in s` is `containsSub s kw`.
* A DataFrame is a `Table`: an ordered list of labelled columns (labels may
  repeat, as they can after `df.rename`).  Row-wise pandas operations are
  embedded per row.
-/

/-- A calendar date (year, month, day) as compared by pandas timestamps. -/
structure NDate where
  y : Nat
  m : Nat
  d : Nat
deriving DecidableEq, Repr

/-- Lexicographic order on dates, matching timestamp comparison. -/
def NDate.le (a b : NDate) : Bool :=
  a.y < b.y || (a.y == b.y && (a.m < b.m || (a.m == b.m && a.d ≤ b.d)))

/-- Raw value of one spreadsheet cell. -/
inductive Cell where
  | na : Cell
  | text : String → Cell
  | date : NDate → Cell
  | num : ℚ → Cell
deriving DecidableEq, Repr

/-- Zero-pad a numeral to two digits. -/
def pad2 (n : Nat) : String := if n < 10 then "0" ++ toString n else toString n

/-- Zero-pad a numeral to four digits. -/
def pad4 (n : Nat) : String :=
  if n < 10 then "000" ++ toString n
  else if n < 100 then "00" ++ toString n
  else if n < 1000 then "0" ++ toString n
  else toString n

/-- The `strftime('%Y-%m-%d')` rendering used at src/parser.py line 77. -/
def formatISO (d : NDate) : String := pad4 d.y ++ "-" ++ pad2 d.m ++ "-" ++ pad2 d.d

/-- Whitespace test for Python's `str.strip()`. -/
def isWS (c : Char) : Bool := c.isWhitespace

/-- Strip leading and trailing whitespace from a character list. -/
def stripL (l : List Char) : List Char :=
  ((l.dropWhile isWS).reverse.dropWhile isWS).reverse

/-- Python's `str.strip()`. -/
def pyStrip (s : String) : String := String.mk (stripL s.data)

/-- Python's `str.lower()`, character by character. -/
def lowerStr (s : String) : String := String.mk (s.data.map Char.toLower)

/-- The numeric value of a non-empty all-digit character list. -/
def digitsVal (l : List Char) : Option Nat :=
  match l with
  | [] => none
  | _ =>
    if l.all Char.isDigit then
      some (l.foldl (fun acc c => acc * 10 + (c.toNat - 48)) 0)
    else none

/-- Integer text: an optional leading minus sign and digits. -/
def strToInt? (s : String) : Option Int :=
  match s.data with
  | '-' :: rest => (digitsVal rest).map fun n => -(n : Int)
  | l => (digitsVal l).map fun n => (n : Int)

/-- Python's `str(x)` on a cell value (`astype(str)`); NaN renders as "nan". -/
def cellToStr : Cell → String
  | Cell.na => "nan"
  | Cell.text s => s
  | Cell.date d => formatISO d
  | Cell.num q => toString q

/-- `pd.to_numeric(-, errors="coerce")` on one cell: numbers pass through,
numeric text parses, everything else coerces to NaN (`none`). -/
def toNumeric : Cell → Option ℚ
  | Cell.num q => some q
  | Cell.text s => (strToInt? s).map fun n => (n : ℚ)
  | _ => none

/-- `pd.to_datetime(-, errors="coerce")` on one cell: date cells (including
ISO-formatted date text, which pandas re-parses to the same timestamp)
parse, other cells coerce to NaT (`none`). -/
def parseDate : Cell → Option NDate
  | Cell.date d => some d
  | _ => none

/-- Does `pat` occur as a prefix of `s` (character lists)? -/
def hasPrefixL : List Char → List Char → Bool
  | [], _ => true
  | _ :: _, [] => false
  | a :: pa, b :: sb => a == b && hasPrefixL pa sb

/-- Does `pat` occur as a contiguous substring of `s` (character lists)? -/
def hasSubL (pat : List Char) : List Char → Bool
  | [] => hasPrefixL pat []
  | c :: t => hasPrefixL pat (c :: t) || hasSubL pat t

/-- Python's substring test `pat in s`. -/
def containsSub (s pat : String) : Bool := hasSubL pat.data s.data

/-- Keywords used to identify transaction tables (src/parser.py line 5). -/
def REQUIRED_KEYWORDS : List String :=
  ["date", "description", "remarks", "narration", "particulars", "debit", "credit", "amount"]

/-- Footer keywords of src/parser.py line 94. -/
def footer_keywords : List String := ["total", "closing", "balance", "summary", "opening"]

/-- A row of the cleaner's input: the Date, Description and Amount cells. -/
structure Row where
  date : Cell
  descr : Cell
  amount : Cell
deriving DecidableEq, Repr

/-- A cleaned transaction record: `date` is the calendar date stored as its
`YYYY-MM-DD` text (`formatISO date`), `ty` is "Debit" or "Credit". -/
structure Txn where
  date : NDate
  descr : String
  amount : ℚ
  ty : String
deriving DecidableEq, Repr

/-- The timestamp `1985-01-01` of src/parser.py line 76. -/
def d1985 : NDate := ⟨1985, 1, 1⟩

/-- Step 1 of `clean_transactions` (lines 74-77): parse dates, drop rows
with missing dates or dates before 1985-01-01. -/
def stage1 (rows : List Row) : List (NDate × Cell × Cell) :=
  rows.filterMap fun r =>
    match parseDate r.date with
    | some d => if NDate.le d1985 d then some (d, r.descr, r.amount) else none
    | none => none

/-- Step 2 (line 80): stringify and strip the Description. -/
def stage2 (l : List (NDate × Cell × Cell)) : List (NDate × String × Cell) :=
  l.map fun x => (x.1, pyStrip (cellToStr x.2.1), x.2.2)

/-- Step 3 (lines 83-84): coerce Amount to numeric, drop NaN amounts. -/
def stage3 (l : List (NDate × String × Cell)) : List (NDate × String × ℚ) :=
  l.filterMap fun x => (toNumeric x.2.2).map fun q => (x.1, x.2.1, q)

/-- The Description filter of step 4 (lines 87-91): kept iff the lowered
text is none of "nan"/""/"none"/"null", not purely digits, and longer
than 2 characters. -/
def descOK (s : String) : Bool :=
  (!(["nan", "", "none", "null"].contains (lowerStr s))) &&
    (!(s.length > 0 && s.data.all Char.isDigit)) && (s.length > 2)

/-- Step 4 (lines 87-91): drop ghost/gibberish description rows. -/
def stage4 (l : List (NDate × String × ℚ)) : List (NDate × String × ℚ) :=
  l.filter fun x => descOK x.2.1

/-- Does a description contain a footer keyword (line 97)? -/
def footFlag (s : String) : Bool := footer_keywords.any fun kw => containsSub (lowerStr s) kw

/-- The cutoff index of lines 95-99: the index of the last footer-flagged
description (the first found scanning backward), or the length when none
is flagged. -/
def cutIdx (descs : List String) : Nat :=
  match descs.reverse.findIdx? footFlag with
  | some i => descs.length - i - 1
  | none => descs.length

/-- Step 5 (lines 93-100): cut the trailing block from the last
footer-flagged row on. -/
def stage5 (l : List (NDate × String × ℚ)) : List (NDate × String × ℚ) :=
  l.take (cutIdx (l.map fun x => x.2.1))

/-- Step 6 (lines 102-104) on one row: negative amounts become "Debit",
others "Credit", and the amount is replaced by its absolute value. -/
def mkTxn (x : NDate × String × ℚ) : Txn :=
  ⟨x.1, x.2.1, if x.2.2 < 0 then -x.2.2 else x.2.2, if x.2.2 < 0 then "Debit" else "Credit"⟩

/-- Step 6 (lines 102-106) over the surviving rows. -/
def stage6 (l : List (NDate × String × ℚ)) : List Txn := l.map mkTxn

/-- `clean_transactions` (src/parser.py lines 71-106), row-wise over the
Date/Description/Amount triples of the frame. -/
def clean_transactions (rows : List Row) : List Txn :=
  stage6 (stage5 (stage4 (stage3 (stage2 (stage1 rows)))))

/-- Feed a cleaned record back to the cleaner: its Date is the
ISO-formatted date text (re-parsed by pandas to the same date), its
Description a text cell, its Amount a numeric cell. -/
def rowOfTxn (t : Txn) : Row := ⟨Cell.date t.date, Cell.text t.descr, Cell.num t.amount⟩

/-- Footer cut (lines 93-100) on already-cleaned records. -/
def footerTrimTxn (l : List Txn) : List Txn := l.take (cutIdx (l.map fun t => t.descr))

/-- Retag a record as "Credit". -/
def setCredit (t : Txn) : Txn := ⟨t.date, t.descr, t.amount, "Credit"⟩

/-- One labelled column of a DataFrame. -/
structure Col where
  label : String
  cells : List Cell
deriving DecidableEq, Repr

/-- A DataFrame: ordered columns; labels may repeat (pandas allows
duplicate column labels, e.g. after `df.rename`). -/
abbrev Table : Type := List Col

/-- Column access `df[lbl]` in the unique-label case: the first column
with that label.  When the label is duplicated, pandas returns a
sub-DataFrame instead of a Series; every call site guards that case
separately (via `countCol`) and raises the error the following pandas
operation would raise. -/
def getCol? (t : Table) (lbl : String) : Option (List Cell) :=
  (t.find? fun c => c.label == lbl).map fun c => c.cells

/-- `lbl in df.columns`. -/
def hasCol (t : Table) (lbl : String) : Bool := t.any fun c => c.label == lbl

/-- How many columns carry this exact label (pandas duplicate labels). -/
def countCol (t : Table) (lbl : String) : Nat := t.countP fun c => c.label == lbl

/-- Column assignment `df[lbl] = cells`: replace the column when the label
exists, append a new column otherwise. -/
def setCol (t : Table) (lbl : String) (cells : List Cell) : Table :=
  if hasCol t lbl then
    t.map fun c => if c.label == lbl then ⟨lbl, cells⟩ else c
  else t ++ [⟨lbl, cells⟩]

/-- `is_transaction_table` (src/parser.py lines 7-17): heuristic check for
transaction table structure over the lower-cased column labels. -/
def is_transaction_table (t : Table) : Bool :=
  let cols := t.map fun c => lowerStr c.label
  let has_date := cols.any fun col => containsSub col "date"
  let has_amount := cols.any fun col =>
    containsSub col "amount" || containsSub col "debit" || containsSub col "credit"
  let has_desc := cols.any fun col =>
    containsSub col "description" || containsSub col "narration" ||
      containsSub col "remarks" || containsSub col "particulars"
  let score := (REQUIRED_KEYWORDS.filter fun kw => cols.any fun col => containsSub col kw).length
  has_date && (has_amount || has_desc) && decide (2 ≤ score) && decide (3 ≤ t.length)

/-- The rename rule of `normalize_columns` (src/parser.py lines 23-36)
applied to one column label: the if/elif chain is first-match-wins, and a
label matching no rule keeps its name (it is absent from `rename_map`). -/
def renameLabel (col : String) : String :=
  let l := lowerStr col
  if containsSub l "date" then "Date"
  else if ["description", "remarks", "narration", "particulars"].any fun x => containsSub l x then
    "Description"
  else if containsSub l "amount" && !containsSub l "withdrawal" && !containsSub l "deposit" then
    "Amount"
  else if containsSub l "withdrawal" || containsSub l "debit" then "Debit"
  else if containsSub l "deposit" || containsSub l "credit" then "Credit"
  else if containsSub l "debit / credit" || containsSub l "dr/cr" then "Type"
  else col

/-- `normalize_columns` (src/parser.py lines 20-37): `df.rename` with the
map built over all column labels renames every column by `renameLabel`;
the map is keyed by the source label, so each column keeps its own cells. -/
def normalize_columns (t : Table) : Table :=
  t.map fun c => ⟨renameLabel c.label, c.cells⟩

/-- Candidate debit-side labels of src/parser.py line 57. -/
def possible_debit : List String :=
  ["debit", "withdrawal", "withdrawal amt.", "withdrawal amount"]

/-- Candidate credit-side labels of src/parser.py line 58. -/
def possible_credit : List String :=
  ["credit", "deposit", "deposit amt.", "deposit amount"]

/-- The NaN-rendering of an optional numeric value back into a cell. -/
def optCell : Option ℚ → Cell
  | some q => Cell.num q
  | none => Cell.na

/-- A Python-style error raised by the pandas pipeline. -/
inductive PyErr where
  | keyError : String → PyErr
  | valueError : String → PyErr
  | attrError : String → PyErr
  | typeError : String → PyErr
deriving DecidableEq, Repr

/-- `compute_signed_amount` (src/parser.py lines 41-68): build the unified
signed Amount column.  With an existing Amount column the amounts are
coerced to numeric and, when a Type column exists, negated on rows whose
lowered stripped Type text contains "debit" (the Type column is also
rewritten to that lowered text, line 49).  Otherwise the first column whose
lowered stripped label is an exact debit-side (resp. credit-side) name is
taken, missing/unparseable entries count as 0, and Amount = credit - debit.
Error paths of the source: with duplicate "Amount" labels `df["Amount"]`
is a DataFrame and `pd.to_numeric` raises TypeError (line 46); with
duplicate "Type" labels the `.str` accessor raises AttributeError (line
49); when a debit-like or credit-like column is missing, `df.get(None, 0)`
yields the scalar 0, whose `.fillna` raises AttributeError (lines 63-64);
when the found side label is duplicated, `df.get` yields a DataFrame and
`pd.to_numeric` raises TypeError (lines 63-64). -/
def compute_signed_amount (t : Table) : Except PyErr Table :=
  if hasCol t "Amount" then
    if 2 ≤ countCol t "Amount" then
      Except.error (PyErr.typeError "to_numeric on a DataFrame")
    else
      let amt0 := ((getCol? t "Amount").getD []).map toNumeric
      if hasCol t "Type" then
        if 2 ≤ countCol t "Type" then
          Except.error (PyErr.attrError "DataFrame has no attribute str")
        else
          let tys := ((getCol? t "Type").getD []).map fun v => lowerStr (pyStrip (cellToStr v))
          let t' := setCol t "Type" (tys.map Cell.text)
          let amt := (amt0.zip tys).map fun p =>
            if containsSub p.2 "debit" then p.1.map Neg.neg else p.1
          Except.ok (setCol t' "Amount" (amt.map optCell))
      else
        Except.ok (setCol t "Amount" (amt0.map optCell))
  else
    match t.find? fun c => possible_debit.contains (pyStrip (lowerStr c.label)) with
    | none => Except.error (PyErr.attrError "fillna on the scalar df.get default")
    | some dcol =>
      if 2 ≤ countCol t dcol.label then
        Except.error (PyErr.typeError "to_numeric on a DataFrame")
      else
        match t.find? fun c => possible_credit.contains (pyStrip (lowerStr c.label)) with
        | none => Except.error (PyErr.attrError "fillna on the scalar df.get default")
        | some ccol =>
          if 2 ≤ countCol t ccol.label then
            Except.error (PyErr.typeError "to_numeric on a DataFrame")
          else
            let dvals := dcol.cells.map fun v => (toNumeric v).getD 0
            let cvals := ccol.cells.map fun v => (toNumeric v).getD 0
            Except.ok (setCol t "Amount" ((cvals.zip dvals).map fun p => Cell.num (p.1 - p.2)))

/-- `clean_transactions` at table level: the column accesses `df["Date"]`
(line 75), `df["Description"]` (line 80) and `df["Amount"]` (line 83) raise
`KeyError` when the column is absent (the Date access happens first).
When a label is duplicated the access yields a sub-DataFrame instead of a
Series and the following operation raises: `pd.to_datetime` on a DataFrame
raises ValueError (line 75), the `.str` accessor raises AttributeError
(line 80), and `pd.to_numeric` raises TypeError (line 83).  Otherwise the
rows are cleaned as triples. -/
def cleanChecked (t : Table) : Except PyErr (List Txn) :=
  match getCol? t "Date" with
  | none => Except.error (PyErr.keyError "Date")
  | some dc =>
    if 2 ≤ countCol t "Date" then
      Except.error (PyErr.valueError "to assemble mappings requires year, month, day")
    else
      match getCol? t "Description" with
      | none => Except.error (PyErr.keyError "Description")
      | some sc =>
        if 2 ≤ countCol t "Description" then
          Except.error (PyErr.attrError "DataFrame has no attribute str")
        else
          match getCol? t "Amount" with
          | none => Except.error (PyErr.keyError "Amount")
          | some ac =>
            if 2 ≤ countCol t "Amount" then
              Except.error (PyErr.typeError "to_numeric on a DataFrame")
            else
              Except.ok (clean_transactions
                ((dc.zip (sc.zip ac)).map fun x => ⟨x.1, x.2.1, x.2.2⟩))

/-- The header-candidate strings of src/parser.py line 118: each cell
stringified and stripped, missing cells becoming the empty string. -/
def headerStrs (row : List Cell) : List String :=
  row.map fun x => match x with
    | Cell.na => ""
    | _ => pyStrip (cellToStr x)

/-- The candidate table built at lines 125-126 from header row `i`: the
header strings label the columns, the cells come from the rows strictly
below row `i` (short rows padded with NaN). -/
def mkCandidate (sheet : List (List Cell)) (i : Nat) : Table :=
  (List.enum (headerStrs ((sheet.drop i).headD []))).map fun p =>
    ⟨p.2, (sheet.drop (i + 1)).map fun r => r.getD p.1 Cell.na⟩

/-- Does header row `i` clear the bar of lines 121-123 (at least 3
non-empty header cells)? -/
def rowOk (sheet : List (List Cell)) (i : Nat) : Bool :=
  3 ≤ (headerStrs ((sheet.drop i).headD [])).countP fun h => h ≠ ""

/-- Does row `i` yield an accepted candidate (lines 121-127): enough
non-empty header cells and a candidate the classifier accepts? -/
def hit (sheet : List (List Cell)) (i : Nat) : Bool :=
  rowOk sheet i && is_transaction_table (mkCandidate sheet i)

/-- The scanning loop of `find_transaction_table` over the remaining row
indices: skip rows failing the bar or the classifier, return the first
accepted candidate. -/
def findFrom (sheet : List (List Cell)) : List Nat → Option Table
  | [] => none
  | i :: rest =>
    if rowOk sheet i then
      if is_transaction_table (mkCandidate sheet i) then some (mkCandidate sheet i)
      else findFrom sheet rest
    else findFrom sheet rest

/-- `find_transaction_table` (src/parser.py lines 112-133): scan at most
`min 100 (number of rows)` header candidates in order; `none` models the
"no transaction table found" return (no exception). -/
def find_transaction_table (sheet : List (List Cell)) : Option Table :=
  findFrom sheet (List.range (min 100 sheet.length))

/-- The per-sheet pipeline body of lines 156-158: normalize, unify, clean;
an error raised by the unifier stops the cleaning from running. -/
def parse_sheet (df : Table) : Except PyErr (List Txn) :=
  match compute_signed_amount (normalize_columns df) with
  | Except.error e => Except.error e
  | Except.ok u => cleanChecked u

/-- The spreadsheet branch of `load_and_parse_statement` (src/parser.py
lines 150-160), taking the already-decoded sheet grids in file order (file
decoding is the external tabular reader's concern): for each sheet, locate
a table; on success normalize, unify and clean it and return — any error
the unification or cleaning raises propagates, there is no handler around
it; only when every sheet lacks a table is the file-level `ValueError`
raised. -/
def load_excel_sheets : List (List (List Cell)) → Except PyErr (List Txn)
  | [] => Except.error (PyErr.valueError "No valid transaction table found in Excel file.")
  | s :: rest =>
    match find_transaction_table s with
    | some df => parse_sheet df
    | none => load_excel_sheets rest

/-- The per-row fusion of cleaning steps 1-4: the record kept for one raw
row, or `none` when a filter drops it. -/
def rowKeep (r : Row) : Option (NDate × String × ℚ) :=
  match parseDate r.date with
  | some d =>
    if NDate.le d1985 d then
      match toNumeric r.amount with
      | some q =>
        if descOK (pyStrip (cellToStr r.descr)) then
          some (d, pyStrip (cellToStr r.descr), q)
        else none
      | none => none
    else none
  | none => none

/-- The date admission test of line 76 on one raw row: the Date cell
parses and the date is at least 1985-01-01. -/
def dateOKRow (r : Row) : Bool :=
  match parseDate r.date with
  | some d => NDate.le d1985 d
  | none => false

/-- Invariant of every triple surviving cleaning steps 1-5: its date is in
range, its description is strip-fixed and passes the description filter. -/
def goodTriple (x : NDate × String × ℚ) : Prop :=
  NDate.le d1985 x.1 = true ∧ pyStrip x.2.1 = x.2.1 ∧ descOK x.2.1 = true

/-- Rows exercising the Row Cleaner twice: the trailing "Total fees" row is
a footer, the first row's description contains "balance" incidentally. -/
def reapplyRows : List Row :=
  [⟨Cell.date ⟨2020, 1, 1⟩, Cell.text "Balance Transfer Fee", Cell.num (-5)⟩,
   ⟨Cell.date ⟨2020, 1, 2⟩, Cell.text "normal txn", Cell.num 3⟩,
   ⟨Cell.date ⟨2020, 1, 3⟩, Cell.text "Total fees", Cell.num 7⟩]

/-- Source columns "Txn Date" and "Value Date" both normalize to the Date
role; "Narration" normalizes to Description. -/
def twoDateTable : Table :=
  [⟨"Txn Date", [Cell.text "A"]⟩, ⟨"Value Date", [Cell.text "B"]⟩,
   ⟨"Narration", [Cell.text "N"]⟩]

/-- A normalized table with a separate Debit/Credit pair: row 1 has
Debit=100, Credit=0; row 2 has Debit=0, Credit=50. -/
def debitCreditTable (d1 d2 : NDate) (s1 s2 : String) : Table :=
  [⟨"Date", [Cell.date d1, Cell.date d2]⟩,
   ⟨"Description", [Cell.text s1, Cell.text s2]⟩,
   ⟨"Debit", [Cell.num 100, Cell.num 0]⟩,
   ⟨"Credit", [Cell.num 0, Cell.num 50]⟩]

/-- A sheet whose candidate table passes classification (labels Date,
Debit, Credit) but yields no Description column after normalization. -/
def noDescSheet : List (List Cell) :=
  [[Cell.text "Date", Cell.text "Debit", Cell.text "Credit"],
   [Cell.date ⟨2023, 5, 1⟩, Cell.num 100, Cell.num 0]]

/-- A sheet whose candidate table cleans successfully. -/
def okSheet : List (List Cell) :=
  [[Cell.text "Date", Cell.text "Narration", Cell.text "Amount"],
   [Cell.date ⟨2023, 5, 1⟩, Cell.text "Grocery Store", Cell.num (-500)]]

/-- A sheet whose candidate passes classification (date + debit, 3
columns) but has no credit-like column: `df.get(None, 0)` then yields the
scalar 0 and `.fillna` raises AttributeError at src/parser.py line 64. -/
def noSideSheet : List (List Cell) :=
  [[Cell.text "Txn Date", Cell.text "Debit", Cell.text "Foo"],
   [Cell.date ⟨2023, 5, 1⟩, Cell.num 100, Cell.text "misc"]]

/-- A sheet whose candidate passes classification but whose "Txn Date" and
"Value Date" columns both normalize to "Date": `df["Date"]` is then a
DataFrame and `pd.to_datetime` raises ValueError at src/parser.py line 75. -/
def dupDateSheet : List (List Cell) :=
  [[Cell.text "Txn Date", Cell.text "Value Date", Cell.text "Debit", Cell.text "Credit"],
   [Cell.date ⟨2023, 5, 1⟩, Cell.date ⟨2023, 5, 2⟩, Cell.num 100, Cell.num 0]]

instance : DecidableEq (Except PyErr (List Txn))
  | .ok a, .ok b =>
    if h : a = b then isTrue (by rw [h]) else isFalse (by intro he; cases he; exact h rfl)
  | .error a, .error b =>
    if h : a = b then isTrue (by rw [h]) else isFalse (by intro he; cases he; exact h rfl)
  | .ok _, .error _ => isFalse (by intro he; cases he)
  | .error _, .ok _ => isFalse (by intro he; cases he)

theorem dropWhile_idem {α : Type} (p : α → Bool) (l : List α) :
    (l.dropWhile p).dropWhile p = l.dropWhile p := by
  induction l with
  | nil => rfl
  | cons a t ih =>
    by_cases h : p a
    · simp [List.dropWhile_cons, h, ih]
    · simp [List.dropWhile_cons, h]

theorem head?_dropWhile {α : Type} (p : α → Bool) (l : List α) :
    ∀ a ∈ (l.dropWhile p).head?, p a = false := by
  induction l with
  | nil => simp
  | cons a t ih =>
    by_cases h : p a
    · simpa [List.dropWhile_cons, h] using ih
    · simp [List.dropWhile_cons, h]

theorem dropWhile_of_head_false {α : Type} (p : α → Bool) (l : List α)
    (h : ∀ a ∈ l.head?, p a = false) : l.dropWhile p = l := by
  cases l with
  | nil => rfl
  | cons a t =>
    have ha : p a = false := h a (by simp)
    simp [List.dropWhile_cons, ha]

theorem getLast?_dropWhile {α : Type} (p : α → Bool) (l : List α)
    (h : l.dropWhile p ≠ []) : (l.dropWhile p).getLast? = l.getLast? := by
  have hsuf : l.dropWhile p <:+ l := List.dropWhile_suffix p
  obtain ⟨pre, hpre⟩ := hsuf
  conv_rhs => rw [← hpre]
  rw [List.getLast?_append]
  cases hg : (l.dropWhile p).getLast? with
  | some a => simp
  | none => exact absurd (List.getLast?_eq_none_iff.mp hg) h

theorem stripL_idem (l : List Char) : stripL (stripL l) = stripL l := by
  unfold stripL
  set m := l.dropWhile isWS with hm
  set r := m.reverse.dropWhile isWS with hr
  have h1 : r.reverse.dropWhile isWS = r.reverse := by
    apply dropWhile_of_head_false
    intro a ha
    rw [List.head?_reverse] at ha
    have hrne : r ≠ [] := by
      intro h
      rw [h] at ha
      simp at ha
    have h2 : r.getLast? = m.reverse.getLast? := by
      rw [hr]
      exact getLast?_dropWhile isWS m.reverse (hr ▸ hrne)
    rw [h2, List.getLast?_reverse] at ha
    exact head?_dropWhile isWS l a (hm ▸ ha)
  rw [h1, List.reverse_reverse, hr, dropWhile_idem]

theorem pyStrip_idem (s : String) : pyStrip (pyStrip s) = pyStrip s := by
  show String.mk (stripL (String.mk (stripL s.data)).data) = String.mk (stripL s.data)
  have h : (String.mk (stripL s.data)).data = stripL s.data := rfl
  rw [h, stripL_idem]



theorem findIdx?_none_of_all_false {α : Type} (p : α → Bool) (l : List α)
    (h : ∀ a ∈ l, p a = false) : ∀ i, l.findIdx? p i = none := by
  induction l with
  | nil => intro i; simp
  | cons a t ih =>
    intro i
    have ha : p a = false := h a (by simp)
    rw [List.findIdx?_cons, ha]
    simpa using ih (fun b hb => h b (by simp [hb])) (i + 1)

theorem findIdx?_append_flag {α : Type} (p : α → Bool) (u v : List α) (x : α)
    (hu : ∀ a ∈ u, p a = false) (hx : p x = true) :
    ∀ i, (u ++ x :: v).findIdx? p i = some (u.length + i) := by
  induction u with
  | nil => intro i; simp [List.findIdx?_cons, hx]
  | cons a u ih =>
    intro i
    have ha : p a = false := hu a (by simp)
    rw [List.cons_append, List.findIdx?_cons, ha, if_neg (by simp),
      ih (fun b hb => hu b (by simp [hb])) (i + 1), List.length_cons]
    congr 1
    omega

theorem cutIdx_of_last_flag (l₁ l₂ : List String) (x : String)
    (hx : footFlag x = true) (h₂ : ∀ y ∈ l₂, footFlag y = false) :
    cutIdx (l₁ ++ x :: l₂) = l₁.length := by
  unfold cutIdx
  have hrev : (l₁ ++ x :: l₂).reverse = l₂.reverse ++ x :: l₁.reverse := by
    rw [List.reverse_append, List.reverse_cons, List.append_assoc]
    rfl
  rw [hrev, findIdx?_append_flag footFlag l₂.reverse l₁.reverse x
    (fun y hy => h₂ y (List.mem_reverse.mp hy)) hx 0]
  simp
  omega

theorem cutIdx_of_no_flag (descs : List String)
    (h : ∀ y ∈ descs, footFlag y = false) : cutIdx descs = descs.length := by
  unfold cutIdx
  rw [findIdx?_none_of_all_false footFlag descs.reverse
    (fun y hy => h y (List.mem_reverse.mp hy)) 0]

theorem mem_stage1_date (rows : List Row) :
    ∀ x ∈ stage1 rows, NDate.le d1985 x.1 = true := by
  intro x hx
  obtain ⟨r, _, hr⟩ := List.mem_filterMap.mp hx
  cases hpd : parseDate r.date with
  | none => rw [hpd] at hr; exact absurd hr (by simp)
  | some d =>
    rw [hpd] at hr
    dsimp only at hr
    by_cases hle : NDate.le d1985 d = true
    · rw [if_pos hle] at hr
      cases hr
      exact hle
    · rw [if_neg hle] at hr
      exact absurd hr (by simp)

theorem mem_stages_good (rows : List Row) :
    ∀ x ∈ stage5 (stage4 (stage3 (stage2 (stage1 rows)))), goodTriple x := by
  intro x hx
  have hx4 : x ∈ stage4 (stage3 (stage2 (stage1 rows))) := by
    simp only [stage5] at hx
    exact List.mem_of_mem_take hx
  have hx3 : x ∈ stage3 (stage2 (stage1 rows)) ∧ descOK x.2.1 = true :=
    List.mem_filter.mp hx4
  obtain ⟨y, hy2, hyx⟩ := List.mem_filterMap.mp hx3.1
  obtain ⟨q, hq, hqx⟩ := Option.map_eq_some'.mp hyx
  obtain ⟨z, hz1, hzy⟩ := List.mem_map.mp hy2
  refine ⟨?_, ?_, hx3.2⟩
  · have h1 : x.1 = z.1 := by rw [← hqx, ← hzy]
    rw [h1]
    exact mem_stage1_date rows z hz1
  · have h2 : x.2.1 = pyStrip (cellToStr z.2.1) := by rw [← hqx, ← hzy]
    rw [h2, pyStrip_idem]

theorem stages_fusion (rows : List Row) :
    stage4 (stage3 (stage2 (stage1 rows))) = rows.filterMap rowKeep := by
  induction rows with
  | nil => rfl
  | cons r rest ih =>
    rw [List.filterMap_cons]
    cases hpd : parseDate r.date with
    | none =>
      have h1 : stage1 (r :: rest) = stage1 rest := by
        simp [stage1, List.filterMap_cons, hpd]
      rw [h1, ih]
      simp [rowKeep, hpd]
    | some d =>
      by_cases hle : NDate.le d1985 d
      · have h1 : stage1 (r :: rest) = (d, r.descr, r.amount) :: stage1 rest := by
          simp [stage1, List.filterMap_cons, hpd, hle]
        rw [h1]
        have h2 : stage2 ((d, r.descr, r.amount) :: stage1 rest) =
            (d, pyStrip (cellToStr r.descr), r.amount) :: stage2 (stage1 rest) := rfl
        rw [h2]
        cases hn : toNumeric r.amount with
        | none =>
          have h3 : stage3 ((d, pyStrip (cellToStr r.descr), r.amount) ::
              stage2 (stage1 rest)) = stage3 (stage2 (stage1 rest)) := by
            simp [stage3, List.filterMap_cons, hn]
          rw [h3, ih]
          simp [rowKeep, hpd, hle, hn]
        | some q =>
          have h3 : stage3 ((d, pyStrip (cellToStr r.descr), r.amount) ::
              stage2 (stage1 rest)) =
              (d, pyStrip (cellToStr r.descr), q) :: stage3 (stage2 (stage1 rest)) := by
            simp [stage3, List.filterMap_cons, hn]
          rw [h3]
          by_cases hde : descOK (pyStrip (cellToStr r.descr))
          · have h4 : stage4 ((d, pyStrip (cellToStr r.descr), q) ::
                stage3 (stage2 (stage1 rest))) =
                (d, pyStrip (cellToStr r.descr), q) :: stage4 (stage3 (stage2 (stage1 rest))) := by
              simp [stage4, List.filter_cons, hde]
            rw [h4, ih]
            simp [rowKeep, hpd, hle, hn, hde]
          · have h4 : stage4 ((d, pyStrip (cellToStr r.descr), q) ::
                stage3 (stage2 (stage1 rest))) = stage4 (stage3 (stage2 (stage1 rest))) := by
              simp [stage4, List.filter_cons, hde]
            rw [h4, ih]
            simp [rowKeep, hpd, hle, hn, hde]
      · have h1 : stage1 (r :: rest) = stage1 rest := by
          simp [stage1, List.filterMap_cons, hpd, hle]
        rw [h1, ih]
        simp [rowKeep, hpd, hle]

theorem stages_of_good (K : List (NDate × String × ℚ)) (hK : ∀ x ∈ K, goodTriple x) :
    stage4 (stage3 (stage2 (stage1 (K.map fun x => rowOfTxn (mkTxn x))))) =
      K.map fun x => (x.1, x.2.1, if x.2.2 < 0 then -x.2.2 else x.2.2) := by
  induction K with
  | nil => rfl
  | cons x K ih =>
    obtain ⟨hd, hs, hdesc⟩ := hK x (by simp)
    have hK' : ∀ y ∈ K, goodTriple y := fun y hy => hK y (by simp [hy])
    rw [List.map_cons]
    have e1 : stage1 (rowOfTxn (mkTxn x) :: K.map fun y => rowOfTxn (mkTxn y)) =
        (x.1, Cell.text x.2.1, Cell.num (if x.2.2 < 0 then -x.2.2 else x.2.2)) ::
          stage1 (K.map fun y => rowOfTxn (mkTxn y)) := by
      simp [stage1, List.filterMap_cons, rowOfTxn, mkTxn, parseDate, hd]
    rw [e1]
    have e2 : stage2 ((x.1, Cell.text x.2.1,
        Cell.num (if x.2.2 < 0 then -x.2.2 else x.2.2)) ::
          stage1 (K.map fun y => rowOfTxn (mkTxn y))) =
        (x.1, x.2.1, Cell.num (if x.2.2 < 0 then -x.2.2 else x.2.2)) ::
          stage2 (stage1 (K.map fun y => rowOfTxn (mkTxn y))) := by
      simp [stage2, cellToStr, hs]
    rw [e2]
    have e3 : stage3 ((x.1, x.2.1, Cell.num (if x.2.2 < 0 then -x.2.2 else x.2.2)) ::
        stage2 (stage1 (K.map fun y => rowOfTxn (mkTxn y)))) =
        (x.1, x.2.1, if x.2.2 < 0 then -x.2.2 else x.2.2) ::
          stage3 (stage2 (stage1 (K.map fun y => rowOfTxn (mkTxn y)))) := by
      simp [stage3, List.filterMap_cons, toNumeric]
    rw [e3]
    have e4 : stage4 ((x.1, x.2.1, if x.2.2 < 0 then -x.2.2 else x.2.2) ::
        stage3 (stage2 (stage1 (K.map fun y => rowOfTxn (mkTxn y))))) =
        (x.1, x.2.1, if x.2.2 < 0 then -x.2.2 else x.2.2) ::
          stage4 (stage3 (stage2 (stage1 (K.map fun y => rowOfTxn (mkTxn y))))) := by
      simp [stage4, List.filter_cons, hdesc]
    rw [e4, ih hK', List.map_cons]

theorem mkTxn_absQ (x : NDate × String × ℚ) :
    mkTxn (x.1, x.2.1, if x.2.2 < 0 then -x.2.2 else x.2.2) = setCredit (mkTxn x) := by
  by_cases h : x.2.2 < 0
  · have h2 : ¬ (-x.2.2 < 0) := by linarith
    simp [mkTxn, setCredit, h, h2]
  · simp [mkTxn, setCredit, h]

theorem reapply_core (K : List (NDate × String × ℚ)) (hK : ∀ x ∈ K, goodTriple x) :
    clean_transactions ((K.map mkTxn).map rowOfTxn) =
      footerTrimTxn ((K.map mkTxn).map setCredit) := by
  rw [List.map_map]
  show stage6 (stage5 (stage4 (stage3 (stage2 (stage1 (K.map (rowOfTxn ∘ mkTxn))))))) = _
  have hcomp : K.map (rowOfTxn ∘ mkTxn) = K.map fun x => rowOfTxn (mkTxn x) := rfl
  rw [hcomp, stages_of_good K hK]
  show List.map mkTxn
      (List.take (cutIdx ((K.map fun x =>
          ((x.1, x.2.1, if x.2.2 < 0 then -x.2.2 else x.2.2) : NDate × String × ℚ)).map
            fun x => x.2.1))
        (K.map fun x =>
          ((x.1, x.2.1, if x.2.2 < 0 then -x.2.2 else x.2.2) : NDate × String × ℚ))) =
    List.take (cutIdx (((K.map mkTxn).map setCredit).map fun t => t.descr))
      ((K.map mkTxn).map setCredit)
  have e1 : (K.map fun x =>
      ((x.1, x.2.1, if x.2.2 < 0 then -x.2.2 else x.2.2) : NDate × String × ℚ)).map
        (fun x => x.2.1) = K.map fun y => y.2.1 := by
    rw [List.map_map]
    rfl
  have e2 : ((K.map mkTxn).map setCredit).map (fun t => t.descr) =
      K.map fun y => y.2.1 := by
    rw [List.map_map, List.map_map]
    rfl
  rw [e1, e2, List.map_take, List.map_map, List.map_map]
  congr 1
  exact List.map_congr_left fun x _ => mkTxn_absQ x

theorem find?_sorted_min (p : Nat → Bool) :
    ∀ l : List Nat, l.Pairwise (· < ·) → ∀ a, l.find? p = some a →
      ∀ b ∈ l, b < a → p b = false := by
  intro l
  induction l with
  | nil => intro _ a h; simp at h
  | cons x t ih =>
    intro hs a h b hb hba
    rw [List.find?_cons] at h
    cases hx : p x with
    | true =>
      rw [hx] at h
      dsimp only at h
      have hxa : x = a := Option.some.inj h
      rcases List.mem_cons.mp hb with rfl | hbt
      · exact ((by omega : False)).elim
      · have hxb : x < b := (List.pairwise_cons.mp hs).1 b hbt
        exact ((by omega : False)).elim
    | false =>
      rw [hx] at h
      dsimp only at h
      rcases List.mem_cons.mp hb with rfl | hbt
      · exact hx
      · exact ih (List.pairwise_cons.mp hs).2 a h b hbt hba

theorem findFrom_eq (sheet : List (List Cell)) (l : List Nat) :
    findFrom sheet l = (l.find? (hit sheet)).map (mkCandidate sheet) := by
  induction l with
  | nil => rfl
  | cons i rest ih =>
    rw [List.find?_cons]
    by_cases h1 : rowOk sheet i = true
    · by_cases h2 : is_transaction_table (mkCandidate sheet i) = true
      · have hh : hit sheet i = true := by simp [hit, h1, h2]
        rw [hh]
        simp [findFrom, h1, h2]
      · have hh : hit sheet i = false := by simp [hit, h2]
        rw [hh]
        dsimp only
        rw [← ih]
        simp [findFrom, h1, h2]
    · have hh : hit sheet i = false := by simp [hit, h1]
      rw [hh]
      dsimp only
      rw [← ih]
      simp [findFrom, h1]

theorem find_some_hit (sheet : List (List Cell)) (t : Table)
    (h : find_transaction_table sheet = some t) :
    ∃ i, i < min 100 sheet.length ∧ hit sheet i = true ∧ t = mkCandidate sheet i ∧
      ∀ j, j < i → hit sheet j = false := by
  unfold find_transaction_table at h
  rw [findFrom_eq] at h
  obtain ⟨i, hfind, hcand⟩ := Option.map_eq_some'.mp h
  have hmem := List.mem_range.mp (List.mem_of_find?_eq_some hfind)
  refine ⟨i, hmem, List.find?_some hfind, hcand.symm, ?_⟩
  intro j hj
  have hji : j ∈ List.range (min 100 sheet.length) := List.mem_range.mpr (by omega)
  exact find?_sorted_min (hit sheet) _ (List.pairwise_lt_range _) i hfind j hji hj

theorem accepted_has_date (t : Table) (h : is_transaction_table t = true) :
    ∃ c ∈ t, containsSub (lowerStr c.label) "date" = true := by
  simp only [is_transaction_table, Bool.and_eq_true] at h
  obtain ⟨⟨⟨hdate, _⟩, _⟩, _⟩ := h
  rw [List.any_eq_true] at hdate
  obtain ⟨col, hcol, hc⟩ := hdate
  obtain ⟨c, hct, hcc⟩ := List.mem_map.mp hcol
  exact ⟨c, hct, by rw [hcc]; exact hc⟩

theorem hasCol_normalize_date (t : Table)
    (h : ∃ c ∈ t, containsSub (lowerStr c.label) "date" = true) :
    hasCol (normalize_columns t) "Date" = true := by
  obtain ⟨c, hct, hc⟩ := h
  unfold hasCol normalize_columns
  rw [List.any_eq_true]
  refine ⟨⟨renameLabel c.label, c.cells⟩, List.mem_map.mpr ⟨c, hct, rfl⟩, ?_⟩
  have hr : renameLabel c.label = "Date" := by
    simp [renameLabel, hc]
  simp [hr]

theorem getCol?_eq_none (t : Table) (x : String) (h : hasCol t x = false) :
    getCol? t x = none := by
  unfold getCol?
  have hf : t.find? (fun c => c.label == x) = none := by
    rw [List.find?_eq_none]
    intro c hc hcx
    have h2 : hasCol t x = true := List.any_eq_true.mpr ⟨c, hc, hcx⟩
    exact Bool.false_ne_true (h.symm.trans h2)
  rw [hf]
  rfl

theorem getCol?_isSome (t : Table) (x : String) (h : hasCol t x = true) :
    ∃ cells, getCol? t x = some cells := by
  unfold hasCol at h
  obtain ⟨c, hc, hcx⟩ := List.any_eq_true.mp h
  have hs : (t.find? fun c => c.label == x).isSome = true :=
    List.find?_isSome.mpr ⟨c, hc, hcx⟩
  obtain ⟨c', hc'⟩ := Option.isSome_iff_exists.mp hs
  exact ⟨c'.cells, by unfold getCol?; rw [hc']; rfl⟩

theorem any_map_general {α β : Type} (f : α → β) (p : β → Bool) (l : List α) :
    (l.map f).any p = l.any fun a => p (f a) := by
  induction l with
  | nil => rfl
  | cons a t ih => simp [List.any_cons, ih]

/-- C1: the Table Classifier accepts a candidate table iff some lower-cased
label contains "date", and some label contains an amount-side keyword or
some label contains a description-side keyword, and at least 2 of the
required keywords occur as a substring of at least one label (each counted
at most once), and there are at least 3 columns; in particular every
accepted table has a "date"-containing label. -/
theorem classifier_accepts_iff (t : Table) :
    (is_transaction_table t = true ↔
      ((∃ c ∈ t, containsSub (lowerStr c.label) "date" = true) ∧
       ((∃ c ∈ t, containsSub (lowerStr c.label) "amount" = true ∨
           containsSub (lowerStr c.label) "debit" = true ∨
           containsSub (lowerStr c.label) "credit" = true) ∨
        (∃ c ∈ t, containsSub (lowerStr c.label) "description" = true ∨
           containsSub (lowerStr c.label) "narration" = true ∨
           containsSub (lowerStr c.label) "remarks" = true ∨
           containsSub (lowerStr c.label) "particulars" = true)) ∧
       2 ≤ (REQUIRED_KEYWORDS.countP fun kw =>
         t.any fun c => containsSub (lowerStr c.label) kw) ∧
       3 ≤ t.length)) ∧
    (is_transaction_table t = true →
      ∃ c ∈ t, containsSub (lowerStr c.label) "date" = true) := by
  have hmap : ∀ p : String → Bool,
      ((t.map fun c => lowerStr c.label).any p) = t.any fun c => p (lowerStr c.label) :=
    fun p => any_map_general _ p t
  constructor
  · simp only [is_transaction_table, hmap, Bool.and_eq_true, Bool.or_eq_true,
      List.any_eq_true, decide_eq_true_eq, List.countP_eq_length_filter]
    constructor
    · rintro ⟨⟨⟨hdate, hads⟩, hscore⟩, hlen⟩
      refine ⟨hdate, ?_, hscore, hlen⟩
      rcases hads with ⟨c, hc, hor⟩ | ⟨c, hc, hor⟩
      · exact Or.inl ⟨c, hc, by tauto⟩
      · exact Or.inr ⟨c, hc, by tauto⟩
    · rintro ⟨hdate, hads, hscore, hlen⟩
      refine ⟨⟨⟨hdate, ?_⟩, hscore⟩, hlen⟩
      rcases hads with ⟨c, hc, hor⟩ | ⟨c, hc, hor⟩
      · exact Or.inl ⟨c, hc, by tauto⟩
      · exact Or.inr ⟨c, hc, by tauto⟩
  · intro h
    simp only [is_transaction_table, hmap, Bool.and_eq_true, Bool.or_eq_true,
      List.any_eq_true, decide_eq_true_eq] at h
    exact h.1.1.1

/-- C4 counterexample: normalizing a table whose distinct source columns
"Txn Date" and "Value Date" both map to the Date role yields TWO columns
labelled "Date", each keeping its own values — not exactly one column
carrying the later column's values. -/
theorem normalizer_duplicate_role_counterexample :
    normalize_columns twoDateTable =
      [⟨"Date", [Cell.text "A"]⟩, ⟨"Date", [Cell.text "B"]⟩,
       ⟨"Description", [Cell.text "N"]⟩] ∧
    ((normalize_columns twoDateTable).countP fun c => c.label == "Date") = 2 := by
  constructor <;> rfl

/-- C4 (amended): the Column Normalizer renames every column by the rename
rule applied to its own label and keeps each column's values; when several
distinct source columns map to the same canonical role the output contains
as many columns with that role label as sources mapped to it (the rename
map is keyed by source label, so distinct source columns never overwrite
one another). -/
theorem normalizer_renames_pointwise (t : Table) :
    (normalize_columns t).map (fun c => c.cells) = t.map (fun c => c.cells) ∧
    (normalize_columns t).map (fun c => c.label) = t.map (fun c => renameLabel c.label) ∧
    ∀ role : String, ((normalize_columns t).countP fun c => c.label == role) =
      t.countP fun c => renameLabel c.label == role := by
  refine ⟨?_, ?_, fun role => ?_⟩
  · rw [normalize_columns, List.map_map]
    rfl
  · rw [normalize_columns, List.map_map]
    rfl
  · rw [normalize_columns, List.countP_map]
    rfl

/-- C6: footer trimming removes exactly the contiguous trailing block from
the last footer-flagged row on (the first found scanning backward); all
rows before it are kept even when flagged themselves, and with no flagged
row nothing is removed. -/
theorem footer_trim_exact (l₁ l₂ : List (NDate × String × ℚ)) (x : NDate × String × ℚ)
    (hx : footFlag x.2.1 = true) (h₂ : ∀ y ∈ l₂, footFlag y.2.1 = false) :
    stage5 (l₁ ++ x :: l₂) = l₁ ∧
    ∀ l : List (NDate × String × ℚ), (∀ y ∈ l, footFlag y.2.1 = false) → stage5 l = l := by
  constructor
  · unfold stage5
    rw [List.map_append, List.map_cons]
    rw [cutIdx_of_last_flag (l₁.map fun x => x.2.1) (l₂.map fun x => x.2.1) x.2.1 hx
      (by
        intro y hy
        obtain ⟨z, hz, rfl⟩ := List.mem_map.mp hy
        exact h₂ z hz)]
    rw [List.length_map]
    exact List.take_left l₁ (x :: l₂)
  · intro l hl
    unfold stage5
    rw [cutIdx_of_no_flag _ (by
      intro y hy
      obtain ⟨z, hz, rfl⟩ := List.mem_map.mp hy
      exact hl z hz)]
    rw [List.length_map, List.take_length]

/-- C6 witness: a list whose first row's description contains "balance"
incidentally and whose last row is a "Total" footer: only the trailing
footer row is cut. -/
theorem footer_trim_exact_witness :
    stage5 [(⟨2020, 1, 1⟩, "Balance Transfer Fee", (5 : ℚ)),
            (⟨2020, 1, 3⟩, "Total", (7 : ℚ))] =
      [(⟨2020, 1, 1⟩, "Balance Transfer Fee", (5 : ℚ))] :=
  (footer_trim_exact [(⟨2020, 1, 1⟩, "Balance Transfer Fee", (5 : ℚ))] []
    (⟨2020, 1, 3⟩, "Total", (7 : ℚ)) (by decide) (by decide)).1

/-- C7: the Header Locator scans at most `min 100 (number of rows)` header
candidates in order; a returned table comes from the earliest row that both
has at least 3 non-empty trimmed header cells and is accepted by the
classifier (`hit`), labelled by that row's trimmed cells; every earlier row
fails the bar or the classifier; and when no row within the bound
qualifies, it reports failure (`none`) without raising. -/
theorem header_locator_first_match (sheet : List (List Cell)) :
    (∀ t, find_transaction_table sheet = some t →
      ∃ i, i < min 100 sheet.length ∧ hit sheet i = true ∧ t = mkCandidate sheet i ∧
        ∀ j, j < i → hit sheet j = false) ∧
    (find_transaction_table sheet = none →
      ∀ i, i < min 100 sheet.length → hit sheet i = false) := by
  constructor
  · intro t ht
    exact find_some_hit sheet t ht
  · intro h i hi
    unfold find_transaction_table at h
    rw [findFrom_eq] at h
    have hf := Option.map_eq_none'.mp h
    have hni := List.find?_eq_none.mp hf i (List.mem_range.mpr hi)
    cases hb : hit sheet i with
    | false => rfl
    | true => exact absurd hb hni

/-- C2 counterexample: on `reapplyRows` the first cleaning keeps the
"Balance Transfer Fee" and "normal txn" rows (the trailing "Total fees"
footer stops the backward scan); re-applying the cleaner to that output
drops everything, because the backward scan now reaches the first row,
whose description contains "balance". -/
theorem row_cleaner_not_idempotent :
    clean_transactions reapplyRows =
      [⟨⟨2020, 1, 1⟩, "Balance Transfer Fee", 5, "Debit"⟩,
       ⟨⟨2020, 1, 2⟩, "normal txn", 3, "Credit"⟩] ∧
    clean_transactions ((clean_transactions reapplyRows).map rowOfTxn) = [] ∧
    clean_transactions ((clean_transactions reapplyRows).map rowOfTxn) ≠
      clean_transactions reapplyRows := by
  refine ⟨?_, ?_, ?_⟩ <;> decide

/-- C2 (amended): re-applying the Row Cleaner to its own output preserves
the Date, Description and Amount of every surviving record and the
relative order, but it is not the identity: the result is the footer
trimming of the first output (further rows are dropped when an earlier
surviving description contains a footer keyword) and every record's Type
becomes "Credit" (the first pass made all amounts non-negative). -/
theorem row_cleaner_reapply (rows : List Row) :
    clean_transactions ((clean_transactions rows).map rowOfTxn) =
      footerTrimTxn ((clean_transactions rows).map setCredit) := by
  have h : clean_transactions rows =
      (stage5 (stage4 (stage3 (stage2 (stage1 rows))))).map mkTxn := rfl
  rw [h]
  exact reapply_core _ (mem_stages_good rows)

/-- C8: every output record of the Row Cleaner has a non-negative Amount
and its Type is "Debit" exactly when the unified signed amount of its
source row was negative (otherwise "Credit"); the output lists the kept
rows in source order (a sublist of the per-row processed rows). -/
theorem cleaner_output_invariants (rows : List Row) :
    ∃ kept : List (NDate × String × ℚ),
      kept.Sublist (rows.filterMap rowKeep) ∧
      clean_transactions rows = kept.map mkTxn ∧
      ∀ x ∈ kept, 0 ≤ (mkTxn x).amount ∧ ((mkTxn x).ty = "Debit" ↔ x.2.2 < 0) ∧
        ((mkTxn x).ty = "Debit" ∨ (mkTxn x).ty = "Credit") := by
  refine ⟨stage5 (stage4 (stage3 (stage2 (stage1 rows)))), ?_, rfl, ?_⟩
  · rw [← stages_fusion]
    simp only [stage5]
    exact List.take_sublist _ _
  · intro x _
    by_cases h : x.2.2 < 0
    · have hty : (mkTxn x).ty = "Debit" := by simp [mkTxn, h]
      have ham : (mkTxn x).amount = -x.2.2 := by simp [mkTxn, h]
      refine ⟨?_, ?_, Or.inl hty⟩
      · rw [ham]
        linarith
      · rw [hty]
        exact ⟨fun _ => h, fun _ => rfl⟩
    · have hty : (mkTxn x).ty = "Credit" := by simp [mkTxn, h]
      have ham : (mkTxn x).amount = x.2.2 := by simp [mkTxn, h]
      refine ⟨?_, ?_, Or.inr hty⟩
      · rw [ham]
        exact not_lt.mp h
      · rw [hty]
        exact ⟨fun hc => absurd hc (by decide), fun hl => absurd hl h⟩

/-- C9: the Row Cleaner ignores exactly the rows with a missing or
unparseable Date or a Date before 1985-01-01 (dropping them beforehand
changes nothing); every surviving record's date is at least 1985-01-01; a
row dated exactly 1985-01-01 with otherwise valid fields is retained; and
the stored form of a surviving date is its `YYYY-MM-DD` text. -/
theorem cleaner_date_filter (rows : List Row) :
    clean_transactions rows = clean_transactions (rows.filter dateOKRow) ∧
    (∀ t ∈ clean_transactions rows, NDate.le d1985 t.date = true) ∧
    clean_transactions [⟨Cell.date d1985, Cell.text "ATM Cash", Cell.num 10⟩] =
      [⟨d1985, "ATM Cash", 10, "Credit"⟩] ∧
    formatISO d1985 = "1985-01-01" := by
  refine ⟨?_, ?_, by decide, by decide⟩
  · have h : stage1 rows = stage1 (rows.filter dateOKRow) := by
      induction rows with
      | nil => rfl
      | cons r rest ih =>
        cases hpd : parseDate r.date with
        | none =>
          have hf : (r :: rest).filter dateOKRow = rest.filter dateOKRow := by
            simp [List.filter_cons, dateOKRow, hpd]
          have h1 : stage1 (r :: rest) = stage1 rest := by
            simp [stage1, List.filterMap_cons, hpd]
          rw [hf, h1, ih]
        | some d =>
          cases hle : NDate.le d1985 d with
          | true =>
            have hf : (r :: rest).filter dateOKRow = r :: rest.filter dateOKRow := by
              simp [List.filter_cons, dateOKRow, hpd, hle]
            have h1 : stage1 (r :: rest) = (d, r.descr, r.amount) :: stage1 rest := by
              simp [stage1, List.filterMap_cons, hpd, hle]
            have h2 : stage1 (r :: rest.filter dateOKRow) =
                (d, r.descr, r.amount) :: stage1 (rest.filter dateOKRow) := by
              simp [stage1, List.filterMap_cons, hpd, hle]
            rw [hf, h1, h2, ih]
          | false =>
            have hf : (r :: rest).filter dateOKRow = rest.filter dateOKRow := by
              simp [List.filter_cons, dateOKRow, hpd, hle]
            have h1 : stage1 (r :: rest) = stage1 rest := by
              simp [stage1, List.filterMap_cons, hpd, hle]
            rw [hf, h1, ih]
    show stage6 (stage5 (stage4 (stage3 (stage2 (stage1 rows))))) = _
    rw [h]
    rfl
  · intro t ht
    simp only [clean_transactions, stage6] at ht
    obtain ⟨x, hx, rfl⟩ := List.mem_map.mp ht
    exact (mem_stages_good rows x hx).1

/-- C10: a row whose unified signed Amount is exactly 0 is not dropped by
the amount filter — with a valid date and description it survives to the
output with Type "Credit" and Amount 0 — and no output record with Amount
0 is ever typed "Debit". -/
theorem zero_amount_credit (rows : List Row) (d : NDate) (s : String)
    (h1 : NDate.le d1985 d = true) (h2 : descOK s = true)
    (h3 : footFlag s = false) (h4 : pyStrip s = s) :
    clean_transactions [⟨Cell.date d, Cell.text s, Cell.num 0⟩] = [⟨d, s, 0, "Credit"⟩] ∧
    ∀ t ∈ clean_transactions rows, t.amount = 0 → t.ty = "Credit" := by
  constructor
  · have e1 : stage1 [⟨Cell.date d, Cell.text s, Cell.num 0⟩] =
        [(d, Cell.text s, Cell.num 0)] := by
      simp [stage1, List.filterMap_cons, parseDate, h1]
    have e2 : stage2 [(d, Cell.text s, Cell.num 0)] = [(d, s, Cell.num 0)] := by
      simp [stage2, cellToStr, h4]
    have e3 : stage3 [(d, s, Cell.num 0)] = [(d, s, (0 : ℚ))] := by
      simp [stage3, List.filterMap_cons, toNumeric]
    have e4 : stage4 [(d, s, (0 : ℚ))] = [(d, s, (0 : ℚ))] := by
      simp [stage4, List.filter_cons, h2]
    have e5 : stage5 [(d, s, (0 : ℚ))] = [(d, s, (0 : ℚ))] := by
      unfold stage5
      rw [cutIdx_of_no_flag _ (by
        intro y hy
        simp only [List.map_cons, List.map_nil, List.mem_singleton] at hy
        rw [hy]
        exact h3)]
      simp
    show stage6 (stage5 (stage4 (stage3 (stage2 (stage1 _))))) = _
    rw [e1, e2, e3, e4, e5]
    simp [stage6, mkTxn]
  · intro t ht hz
    simp only [clean_transactions, stage6] at ht
    obtain ⟨x, hx, rfl⟩ := List.mem_map.mp ht
    by_cases h : x.2.2 < 0
    · exfalso
      have ham : (mkTxn x).amount = -x.2.2 := by simp [mkTxn, h]
      rw [ham] at hz
      have : x.2.2 = 0 := by linarith
      exact absurd this (by
        intro he
        rw [he] at h
        exact absurd h (by norm_num))
    · simp [mkTxn, h]

/-- C10 witness: a concrete zero-amount row survives with Type "Credit". -/
theorem zero_amount_credit_witness :
    clean_transactions [⟨Cell.date ⟨2020, 1, 1⟩, Cell.text "ATM", Cell.num 0⟩] =
      [⟨⟨2020, 1, 1⟩, "ATM", 0, "Credit"⟩] :=
  (zero_amount_credit [] ⟨2020, 1, 1⟩ "ATM"
    (by decide) (by decide) (by decide) (by decide)).1

/-- C5: on a table with a separate Debit/Credit pair, the Amount Unifier
produces the signed amounts credit - debit — here -100 for the row with
Debit=100, Credit=0 and 50 for the row with Debit=0, Credit=50 — and the
Row Cleaner then outputs Type "Debit" with Amount 100 for the first row
and Type "Credit" with Amount 50 for the second. -/
theorem debit_credit_roundtrip (d1 d2 : NDate) (s1 s2 : String)
    (hd1 : NDate.le d1985 d1 = true) (hd2 : NDate.le d1985 d2 = true)
    (hs1 : descOK s1 = true) (hs2 : descOK s2 = true)
    (hf1 : footFlag s1 = false) (hf2 : footFlag s2 = false)
    (hp1 : pyStrip s1 = s1) (hp2 : pyStrip s2 = s2) :
    ∃ u, compute_signed_amount (debitCreditTable d1 d2 s1 s2) = Except.ok u ∧
      getCol? u "Amount" = some [Cell.num (-100), Cell.num 50] ∧
      cleanChecked u =
        Except.ok [⟨d1, s1, 100, "Debit"⟩, ⟨d2, s2, 50, "Credit"⟩] := by
  have hcomp : compute_signed_amount (debitCreditTable d1 d2 s1 s2) =
      Except.ok (debitCreditTable d1 d2 s1 s2 ++
        [⟨"Amount", [Cell.num (0 - 100), Cell.num (50 - 0)]⟩]) := rfl
  have hval1 : (0 - 100 : ℚ) = -100 := by norm_num
  have hval2 : (50 - 0 : ℚ) = 50 := by norm_num
  rw [hval1, hval2] at hcomp
  refine ⟨debitCreditTable d1 d2 s1 s2 ++
    [⟨"Amount", [Cell.num (-100), Cell.num 50]⟩], hcomp, ?_, ?_⟩
  · rfl
  · have hclean : cleanChecked (debitCreditTable d1 d2 s1 s2 ++
        [⟨"Amount", [Cell.num (-100), Cell.num 50]⟩]) =
        Except.ok (clean_transactions
          [⟨Cell.date d1, Cell.text s1, Cell.num (-100)⟩,
           ⟨Cell.date d2, Cell.text s2, Cell.num 50⟩]) := rfl
    rw [hclean]
    have e1 : stage1 [⟨Cell.date d1, Cell.text s1, Cell.num (-100)⟩,
        ⟨Cell.date d2, Cell.text s2, Cell.num 50⟩] =
        [(d1, Cell.text s1, Cell.num (-100)), (d2, Cell.text s2, Cell.num 50)] := by
      simp [stage1, List.filterMap_cons, parseDate, hd1, hd2]
    have e2 : stage2 [(d1, Cell.text s1, Cell.num (-100)), (d2, Cell.text s2, Cell.num 50)] =
        [(d1, s1, Cell.num (-100)), (d2, s2, Cell.num 50)] := by
      simp [stage2, cellToStr, hp1, hp2]
    have e3 : stage3 [(d1, s1, Cell.num (-100)), (d2, s2, Cell.num 50)] =
        [(d1, s1, (-100 : ℚ)), (d2, s2, (50 : ℚ))] := by
      simp [stage3, List.filterMap_cons, toNumeric]
    have e4 : stage4 [(d1, s1, (-100 : ℚ)), (d2, s2, (50 : ℚ))] =
        [(d1, s1, (-100 : ℚ)), (d2, s2, (50 : ℚ))] := by
      simp [stage4, List.filter_cons, hs1, hs2]
    have e5 : stage5 [(d1, s1, (-100 : ℚ)), (d2, s2, (50 : ℚ))] =
        [(d1, s1, (-100 : ℚ)), (d2, s2, (50 : ℚ))] := by
      unfold stage5
      rw [cutIdx_of_no_flag _ (by
        intro y hy
        simp only [List.map_cons, List.map_nil, List.mem_cons, List.mem_singleton,
          List.not_mem_nil, or_false] at hy
        rcases hy with rfl | rfl
        · exact hf1
        · exact hf2)]
      simp
    show Except.ok (stage6 (stage5 (stage4 (stage3 (stage2 (stage1 _)))))) = _
    rw [e1, e2, e3, e4, e5]
    norm_num [stage6, mkTxn]

/-- C5 witness: the round trip at concrete dates and descriptions. -/
theorem debit_credit_roundtrip_witness :
    ∃ u, compute_signed_amount
        (debitCreditTable ⟨2023, 5, 1⟩ ⟨2023, 5, 2⟩ "Grocery Store" "Salary") =
        Except.ok u ∧
      getCol? u "Amount" = some [Cell.num (-100), Cell.num 50] ∧
      cleanChecked u =
        Except.ok [⟨⟨2023, 5, 1⟩, "Grocery Store", 100, "Debit"⟩,
          ⟨⟨2023, 5, 2⟩, "Salary", 50, "Credit"⟩] :=
  debit_credit_roundtrip ⟨2023, 5, 1⟩ ⟨2023, 5, 2⟩ "Grocery Store" "Salary"
    (by decide) (by decide) (by decide) (by decide) (by decide) (by decide)
    (by decide) (by decide)

/-- C3 counterexample: the first sheet's candidate (labels Date, Debit,
Credit) passes classification but yields no Description column; the loader
then raises the `KeyError` out of the whole run instead of continuing to
the second sheet, even though that sheet alone parses fine.  Two further
classification-passing sheets crash the run with different errors: with no
credit-like column the unifier's scalar-`fillna` raises AttributeError,
and with "Txn Date" and "Value Date" both normalized to "Date" the
duplicate-label `pd.to_datetime` raises ValueError. -/
theorem loader_crashes_on_malformed_sheet :
    load_excel_sheets [noDescSheet, okSheet] =
      Except.error (PyErr.keyError "Description") ∧
    load_excel_sheets [okSheet] =
      Except.ok [⟨⟨2023, 5, 1⟩, "Grocery Store", 500, "Debit"⟩] ∧
    load_excel_sheets [noSideSheet, okSheet] =
      Except.error (PyErr.attrError "fillna on the scalar df.get default") ∧
    load_excel_sheets [dupDateSheet, okSheet] =
      Except.error (PyErr.valueError "to assemble mappings requires year, month, day") := by
  refine ⟨?_, ?_, ?_, ?_⟩ <;> decide

/-- C3 (amended): the loader skips a sheet only when the Header Locator
finds no table in it; any error the per-sheet pipeline raises propagates
out of the whole run (there is no per-sheet handler), so later sheets are
not tried.  In particular, when the unifier succeeds on the normalized
table and that table has exactly one Date column but no Description
column, the error is the cleaner's KeyError "Description" (other malformed
shapes raise earlier: a missing debit/credit side raises AttributeError in
the unifier, duplicate Date columns raise ValueError at the date parse).
Date itself is always present after normalizing an accepted candidate. -/
theorem loader_sheet_failure_behavior (s : List (List Cell))
    (rest : List (List (List Cell))) :
    (find_transaction_table s = none →
      load_excel_sheets (s :: rest) = load_excel_sheets rest) ∧
    (∀ c e, find_transaction_table s = some c → parse_sheet c = Except.error e →
      load_excel_sheets (s :: rest) = Except.error e) ∧
    (∀ c u, find_transaction_table s = some c →
      compute_signed_amount (normalize_columns c) = Except.ok u →
      countCol u "Date" = 1 → hasCol u "Description" = false →
      load_excel_sheets (s :: rest) = Except.error (PyErr.keyError "Description")) ∧
    (∀ c, find_transaction_table s = some c →
      hasCol (normalize_columns c) "Date" = true) := by
  refine ⟨?_, ?_, ?_, ?_⟩
  · intro h
    simp [load_excel_sheets, h]
  · intro c e hfind herr
    simp [load_excel_sheets, hfind, herr]
  · intro c u hfind hcomp hdcount hdesc
    have hpos : 0 < u.countP fun c => c.label == "Date" := by
      unfold countCol at hdcount
      omega
    have hdate : hasCol u "Date" = true := by
      unfold hasCol
      rw [List.any_eq_true]
      exact List.countP_pos_iff.mp hpos
    obtain ⟨dc, hdc⟩ := getCol?_isSome u "Date" hdate
    have hdn := getCol?_eq_none u "Description" hdesc
    have hguard : ¬ (2 ≤ countCol u "Date") := by
      rw [hdcount]
      omega
    have hclean : cleanChecked u = Except.error (PyErr.keyError "Description") := by
      simp only [cleanChecked, hdc, hdn]
      rw [if_neg hguard]
    have hparse : parse_sheet c = Except.error (PyErr.keyError "Description") := by
      simp only [parse_sheet, hcomp, hclean]
    simp [load_excel_sheets, hfind, hparse]
  · intro c hfind
    have hacc : is_transaction_table c = true := by
      obtain ⟨i, _, hhit, hcand, _⟩ := find_some_hit s c hfind
      rw [hcand]
      rw [hit, Bool.and_eq_true] at hhit
      exact hhit.2
    exact hasCol_normalize_date c (accepted_has_date c hacc)
